import Mathlib

/-!
Verification development for the bjot quiz-backend repository.

The subject of the claims is the multi-question-set quiz submission
workflow.  The authoritative implementation is the transactional revision
of the quiz-taker routes (the final revision inside src/routes/public.js,
lines 1645-2737), together with the models in src/models/QuizTaker.js and
the latest QuizSubmission schema revision (src/unnamed/part_003).

JavaScript values are embedded as follows: ObjectIds become Nat, Date
values become Nat timestamps, strings stay String, and the handlers become
pure functions from an explicit state to Except error (state, response).
-/

namespace Bjot

/-! ### Models of the JavaScript string builtins used by the grading code -/

/-- Model of the JavaScript method String.prototype.trim: drop whitespace
from both ends. -/
def jsTrim (s : String) : String :=
  ⟨((s.data.dropWhile Char.isWhitespace).reverse.dropWhile Char.isWhitespace).reverse⟩

/-- Model of the JavaScript method String.prototype.toLowerCase (ASCII
case folding, which covers all answer strings of the repository). -/
def jsToLower (s : String) : String :=
  ⟨s.data.map Char.toLower⟩

/-- Model of the JavaScript method String.prototype.startsWith. -/
def jsStartsWith (s pat : String) : Bool :=
  pat.data.isPrefixOf s.data

/-! ### Questions and grading

Question data follows the QuestionSchema of the QuestionSet model
(src/models, QuestionSchema: type, question, options, correctAnswer,
points). -/

/-- Question type enum of QuestionSchema (models and QuizSubmission
AnswerSchema agree on it). -/
inductive QType where
  | multipleChoice
  | trueFalse
  | fillInTheBlanks
  | essay
deriving DecidableEq, Repr

structure Question where
  qid : Nat
  qtype : QType
  options : List String
  correctAnswer : String
  points : Nat
deriving DecidableEq, Repr

/-- One question-set snapshot inside a quiz (QuizQuestionSetSchema:
order 1-4, questions, totalPoints). -/
structure QuestionSet where
  order : Nat
  questions : List Question
  totalPoints : Nat
deriving DecidableEq, Repr

structure Quiz where
  quizId : Nat
  questionSets : List QuestionSet
  totalPoints : Nat
deriving DecidableEq, Repr

/-- Grading switch of the transactional submit handler
(src/routes/public.js lines 2385-2426).  Returns (isCorrect,
pointsAwarded).  Multiple choice compares the trimmed submitted text with
the trimmed stored correctAnswer, case-sensitively; true-false lowercases
both sides; fill-in-the-blanks trims and lowercases both sides; essay
leaves isCorrect null and awards 0 points. -/
def gradeQuestionTx (q : Question) (submitted : String) : Option Bool × Nat :=
  match q.qtype with
  | .multipleChoice =>
      if jsTrim submitted = jsTrim q.correctAnswer then (some true, q.points)
      else (some false, 0)
  | .trueFalse =>
      if jsToLower submitted = jsToLower q.correctAnswer then (some true, q.points)
      else (some false, 0)
  | .fillInTheBlanks =>
      if jsToLower (jsTrim submitted) = jsToLower (jsTrim q.correctAnswer) then
        (some true, q.points)
      else (some false, 0)
  | .essay => (none, 0)

/-- Multiple-choice branch of the non-transactional submit handler
(src/routes/public.js lines 1347-1371): find the option whose trimmed text
starts with the stored correct-answer letter followed by a period, then
require exact (untrimmed, case-sensitive) equality of the submitted text
with that option text.  When no option matches the letter, the comparison
of the submitted string with the absent option is false. -/
def gradeMultipleChoiceByLabel (q : Question) (submitted : String) : Option Bool × Nat :=
  match q.options.find? (fun opt => jsStartsWith (jsTrim opt) (q.correctAnswer ++ ".")) with
  | some correctOption =>
      if submitted = correctOption then (some true, q.points) else (some false, 0)
  | none => (some false, 0)

/-! ### Answers and the submission document

These follow AnswerSchema and QuestionSetSubmissionSchema of
src/models/QuizSubmission.js (latest revision src/unnamed/part_003). -/

structure GradedAnswer where
  questionId : Nat
  questionSetOrder : Nat
  questionType : QType
  answer : String
  pointsPossible : Nat
  pointsAwarded : Nat
  isCorrect : Option Bool
deriving DecidableEq, Repr

structure QSSubmissionEntry where
  questionSetOrder : Nat
  submittedAt : Nat
  score : Nat
  totalPoints : Nat
  orderAnswered : Nat
deriving DecidableEq, Repr

inductive SubStatus where
  | inProgress
  | autoGraded
  | pendingManualGrading
  | graded
deriving DecidableEq, Repr

structure QuizSubmission where
  subId : Nat
  quizId : Nat
  quizTakerId : Nat
  answers : List GradedAnswer
  questionSetSubmissions : List QSSubmissionEntry
  startedAt : Option Nat
  submittedAt : Nat
  timeTaken : Nat
  score : Nat
  totalPoints : Nat
  status : SubStatus
  questionSetOrderUsed : List Nat
  attemptNumber : Nat
deriving DecidableEq, Repr

/-! ### Quiz taker, assignment and per-slot progress

These follow QuestionSetProgressSchema and QuizTakerSchema of
src/models/QuizTaker.js (second revision, lines 64-289 of the file). -/

inductive QSStatus where
  | notStarted
  | inProgress
  | completed
deriving DecidableEq, Repr

structure QSProgress where
  questionSetOrder : Nat
  selectedOrder : Option Nat
  status : QSStatus
  startedAt : Option Nat
  completedAt : Option Nat
  score : Nat
  totalPoints : Nat
deriving DecidableEq, Repr

inductive AQStatus where
  | pending
  | inProgress
  | completed
deriving DecidableEq, Repr

structure AssignedQuiz where
  quizId : Nat
  status : AQStatus
  startedAt : Option Nat
  completedAt : Option Nat
  submissionId : Option Nat
  questionSetProgress : List QSProgress
  selectedQuestionSetOrder : List Nat
  currentQuestionSetOrder : Option Nat
deriving DecidableEq, Repr

inductive AccountType where
  | premium
  | regular
deriving DecidableEq, Repr

/-- One entry of the quizzesTaken history list.  The display-only payload
fields (examType, questionSets titles, percentage) are omitted; no claim
mentions them. -/
structure QuizTakenEntry where
  quizId : Nat
  score : Nat
  totalPoints : Nat
  timeTaken : Nat
  completedAt : Nat
  attemptNumber : Nat
deriving DecidableEq, Repr

structure QuizTaker where
  takerId : Nat
  accountType : AccountType
  accessCode : Option String
  assignedQuizzes : List AssignedQuiz
  quizzesTaken : List QuizTakenEntry
deriving DecidableEq, Repr

/-! ### List helper

A JavaScript handler mutates the object returned by Array.prototype.find
in place; on an immutable list this is an update of the first element
satisfying the predicate. -/

def updateFirst (p : α → Bool) (f : α → α) : List α → List α
  | [] => []
  | a :: as => if p a then f a :: as else a :: updateFirst p f as

/-- Fresh progress record used by initializeQuestionSetProgress
(src/models/QuizTaker.js lines 266-271): only questionSetOrder and the
not-started status are set, everything else takes its schema default. -/
def emptyProgress (k : Nat) : QSProgress :=
  { questionSetOrder := k, selectedOrder := none, status := .notStarted,
    startedAt := none, completedAt := none, score := 0, totalPoints := 0 }

/-- Method initializeQuestionSetProgress of QuizTakerSchema
(src/models/QuizTaker.js lines 258-275), restricted to the assigned-quiz
entry it found: a no-op unless the progress array is empty, in which case
the four slots 1-4 are created. -/
def initializeQuestionSetProgress (aq : AssignedQuiz) : AssignedQuiz :=
  if aq.questionSetProgress.isEmpty then
    { aq with questionSetProgress :=
        [emptyProgress 1, emptyProgress 2, emptyProgress 3, emptyProgress 4] }
  else aq

/-! ### Handler state, requests and errors -/

/-- The state a quiz-taker route handler can read and write: the quiz
collection, the authenticated taker document and the submission
collection.  Dates are Nat timestamps passed in as a now parameter. -/
structure St where
  quizzes : List Quiz
  taker : QuizTaker
  subs : List QuizSubmission
deriving DecidableEq, Repr

inductive RouteError where
  | invalidQuestionSetOrder
  | notAssigned
  | quizAlreadyCompleted
  | quizNotFound
  | questionSetNotFound
  | questionSetAlreadySubmitted
  | questionSetAlreadyCompleted
  | invalidOrderArray
  | cannotChangeOrderAfterSubmitting
deriving DecidableEq, Repr

structure SubmittedAnswer where
  questionId : Nat
  answer : String
deriving DecidableEq, Repr

structure SubmitRequest where
  questionSetOrder : Nat
  answers : List SubmittedAnswer
  isFinalSubmission : Bool
deriving DecidableEq, Repr

structure SubmitResponse where
  subId : Nat
  questionSetScore : Nat
  questionSetTotalPoints : Nat
  overallScore : Nat
  overallTotalPoints : Nat
  status : SubStatus
  isFinalSubmission : Bool
  attemptNumber : Nat
deriving DecidableEq, Repr

/-- Grading of one submitted answer inside the forEach of the
transactional submit handler (src/routes/public.js lines 2365-2429).  A
questionId that matches no question of the targeted set yields none: the
answer is skipped with only a console warning (lines 2370-2373). -/
def gradeSubmittedAnswer (qs : QuestionSet) (k : Nat) (sa : SubmittedAnswer) :
    Option GradedAnswer :=
  match qs.questions.find? (fun q => q.qid == sa.questionId) with
  | none => none
  | some q =>
      let r := gradeQuestionTx q sa.answer
      some { questionId := q.qid, questionSetOrder := k, questionType := q.qtype,
             answer := sa.answer, pointsPossible := q.points,
             pointsAwarded := r.2, isCorrect := r.1 }

/-- Predicate of the findOne call at src/routes/public.js lines 2328-2332:
the unique in-progress submission of this quiz and taker. -/
def subMatches (quizId takerId : Nat) (s : QuizSubmission) : Bool :=
  s.quizId == quizId && s.quizTakerId == takerId && s.status == SubStatus.inProgress

/-- Statuses counted when numbering a new attempt (src/routes/public.js
lines 2338-2342). -/
def finishedStatus (s : SubStatus) : Bool :=
  s == .autoGraded || s == .pendingManualGrading || s == .graded

/-- Lazily created submission document of the transactional submit handler
(src/routes/public.js lines 2336-2358): fresh empty answer lists, the
quiz total points snapshot, the taker's chosen slot order (defaulting to
1,2,3,4) and an attempt number counting the earlier finished attempts. -/
def newSubmission (quiz : Quiz) (takerId : Nat) (subs : List QuizSubmission)
    (aq : AssignedQuiz) (now freshId : Nat) : QuizSubmission :=
  { subId := freshId, quizId := quiz.quizId, quizTakerId := takerId,
    answers := [], questionSetSubmissions := [],
    startedAt := aq.startedAt, submittedAt := now, timeTaken := 0,
    score := 0, totalPoints := quiz.totalPoints, status := .inProgress,
    questionSetOrderUsed :=
      if aq.selectedQuestionSetOrder.isEmpty then [1, 2, 3, 4]
      else aq.selectedQuestionSetOrder,
    attemptNumber :=
      (subs.filter (fun s => s.quizId == quiz.quizId && s.quizTakerId == takerId &&
        finishedStatus s.status)).length + 1 }

/-- Submission aggregator step of the transactional submit handler
(src/routes/public.js lines 2431-2467): replace the previously stored
answers of slot k, update or append the per-slot entry, and recompute the
overall score as the sum of the awarded points of all stored answers. -/
def mergeSlotAnswers (sub : QuizSubmission) (k : Nat)
    (gradedAnswers : List GradedAnswer)
    (questionSetScore qsTotalPoints orderAnswered now : Nat) : QuizSubmission :=
  let newAnswers :=
    (sub.answers.filter (fun a => a.questionSetOrder != k)) ++ gradedAnswers
  let newQss :=
    if sub.questionSetSubmissions.any (fun e => e.questionSetOrder == k) then
      updateFirst (fun e => e.questionSetOrder == k)
        (fun e => { e with
            submittedAt := now, score := questionSetScore,
            totalPoints := qsTotalPoints, orderAnswered := orderAnswered })
        sub.questionSetSubmissions
    else
      sub.questionSetSubmissions ++
        [{ questionSetOrder := k, submittedAt := now, score := questionSetScore,
           totalPoints := qsTotalPoints, orderAnswered := orderAnswered }]
  { sub with
      answers := newAnswers,
      questionSetSubmissions := newQss,
      score := (newAnswers.map (fun a => a.pointsAwarded)).sum }

/-- Slot-progress completion of the transactional submit handler
(src/routes/public.js lines 2469-2475): every successful submit, partial
or final, marks the targeted slot completed. -/
def completeSlotProgress (aq : AssignedQuiz)
    (k questionSetScore qsTotalPoints now : Nat) : AssignedQuiz :=
  { aq with
      questionSetProgress :=
        updateFirst (fun p => p.questionSetOrder == k)
          (fun p => { p with
              status := .completed, completedAt := some now,
              score := questionSetScore, totalPoints := qsTotalPoints })
          aq.questionSetProgress }

/-- Progress initialization step of the transactional submit handler
(src/routes/public.js lines 2303-2306): unlike the start routes, it runs
only when the progress array is missing or empty. -/
def initIfEmpty (aq : AssignedQuiz) : AssignedQuiz :=
  if aq.questionSetProgress.isEmpty then initializeQuestionSetProgress aq else aq

/-- Success path of the transactional submit handler, everything after
the guard chain (src/routes/public.js lines 2321-2533): start the quiz if
pending, find or lazily create the open submission, grade, aggregate,
complete the slot, optionally finalize, and commit both documents.  The
aq1 argument is the assigned-quiz entry after initIfEmpty. -/
def submitSuccess (st : St) (quizId : Nat) (req : SubmitRequest) (now freshId : Nat)
    (aq1 : AssignedQuiz) (quiz : Quiz) (qs : QuestionSet) : St × SubmitResponse :=
  -- lines 2321-2325: start quiz if pending
  let aq2 := if aq1.status = .pending
    then { aq1 with status := .inProgress, startedAt := some now } else aq1
  -- lines 2327-2358: find or lazily create the open submission
  let found := st.subs.find? (subMatches quiz.quizId st.taker.takerId)
  let submission0 := match found with
    | some s => s
    | none => newSubmission quiz st.taker.takerId st.subs aq2 now freshId
  -- lines 2360-2429: grade the answers; questionSetScore accumulates
  -- exactly the awarded points of the graded answers
  let gradedAnswers := req.answers.filterMap
    (gradeSubmittedAnswer qs req.questionSetOrder)
  let questionSetScore := (gradedAnswers.map (fun a => a.pointsAwarded)).sum
  -- line 2443: order answered among the slots
  let orderAnswered :=
    (aq2.questionSetProgress.filter (fun p => p.status == .completed)).length + 1
  -- lines 2431-2467: aggregation
  let submission1 := mergeSlotAnswers submission0 req.questionSetOrder
    gradedAnswers questionSetScore qs.totalPoints orderAnswered now
  -- lines 2469-2475
  let aq3 := completeSlotProgress aq2 req.questionSetOrder
    questionSetScore qs.totalPoints now
  let hasAnyEssay := submission1.answers.any (fun a => a.questionType == .essay)
  -- lines 2479-2506: final-submission block (timestamps in ms)
  let submission2 := if req.isFinalSubmission then
      { submission1 with
        timeTaken := (now - aq3.startedAt.getD now) / 1000,
        submittedAt := now,
        status := if hasAnyEssay then .pendingManualGrading else .autoGraded }
    else submission1
  let aq4 := if req.isFinalSubmission then
      { aq3 with
        status := .completed, completedAt := some now,
        submissionId := some submission2.subId }
    else aq3
  let taken := if req.isFinalSubmission then
      st.taker.quizzesTaken ++
        [{ quizId := quiz.quizId, score := submission2.score,
           totalPoints := submission2.totalPoints,
           timeTaken := submission2.timeTaken, completedAt := now,
           attemptNumber := submission2.attemptNumber }]
    else st.taker.quizzesTaken
  -- lines 2508-2515: both documents are committed together
  let newSubs := match found with
    | some _ => updateFirst (subMatches quiz.quizId st.taker.takerId)
        (fun _ => submission2) st.subs
    | none => st.subs ++ [submission2]
  let newTaker := { st.taker with
    assignedQuizzes := updateFirst (fun a => a.quizId == quizId)
      (fun _ => aq4) st.taker.assignedQuizzes,
    quizzesTaken := taken }
  -- lines 2518-2533: success response
  ({ st with taker := newTaker, subs := newSubs },
   { subId := submission2.subId, questionSetScore := questionSetScore,
     questionSetTotalPoints := qs.totalPoints,
     overallScore := submission2.score,
     overallTotalPoints := submission2.totalPoints,
     status := submission2.status,
     isFinalSubmission := req.isFinalSubmission,
     attemptNumber := submission2.attemptNumber })

/-- Transactional submit handler POST /quiz/:quizId/submit, body of one
transaction attempt (src/routes/public.js lines 2236-2533): the guard
chain in source order, then the success path submitSuccess.  An error
return models an aborted transaction (no state change); an ok return
models a committed one. -/
def submitQuestionSet (st : St) (quizId : Nat) (req : SubmitRequest) (now freshId : Nat) :
    Except RouteError (St × SubmitResponse) :=
  -- lines 2244-2250: validation (0 is falsy in JS, subsumed by the < 1 test)
  if req.questionSetOrder < 1 ∨ 4 < req.questionSetOrder then
    .error .invalidQuestionSetOrder
  else
    -- lines 2261-2273: find the assigned-quiz entry on the freshly read taker
    match st.taker.assignedQuizzes.find? (fun aq => aq.quizId == quizId) with
    | none => .error .notAssigned
    | some aq =>
      -- lines 2275-2281
      if aq.status = .completed then .error .quizAlreadyCompleted
      else
        -- lines 2283-2291
        match st.quizzes.find? (fun qz => qz.quizId == quizId) with
        | none => .error .quizNotFound
        | some quiz =>
          -- lines 2293-2301
          match quiz.questionSets.find? (fun qs => qs.order == req.questionSetOrder) with
          | none => .error .questionSetNotFound
          | some qs =>
            -- lines 2308-2319: duplicate-submission guard on the slot
            if ((initIfEmpty aq).questionSetProgress.find?
                  (fun p => p.questionSetOrder == req.questionSetOrder)).any
                  (fun p => p.status == .completed) then
              .error .questionSetAlreadySubmitted
            else
              .ok (submitSuccess st quizId req now freshId (initIfEmpty aq) quiz qs)

/-- Handler POST /quiz/:quizId/start (src/routes/public.js lines
2025-2074).  An already in-progress quiz answers 200 without saving. -/
def startQuiz (st : St) (quizId now : Nat) : Except RouteError St :=
  match st.taker.assignedQuizzes.find? (fun aq => aq.quizId == quizId) with
  | none => .error .notAssigned
  | some aq =>
    if aq.status = .completed then .error .quizAlreadyCompleted
    else if aq.status = .inProgress then .ok st
    else
      let aq1 := initializeQuestionSetProgress
        { aq with status := .inProgress, startedAt := some now }
      .ok { st with taker := { st.taker with
        assignedQuizzes := updateFirst (fun a => a.quizId == quizId)
          (fun _ => aq1) st.taker.assignedQuizzes } }

/-- Handler POST /quiz/:quizId/question-set/:questionSetOrder/start
(src/routes/public.js lines 2079-2158). -/
def startQuestionSet (st : St) (quizId k now : Nat) : Except RouteError St :=
  if k < 1 ∨ 4 < k then .error .invalidQuestionSetOrder
  else
    match st.taker.assignedQuizzes.find? (fun aq => aq.quizId == quizId) with
    | none => .error .notAssigned
    | some aq =>
      if aq.status = .completed then .error .quizAlreadyCompleted
      else
        -- line 2110: unconditional initialize call (a no-op if non-empty)
        let aq1 := initializeQuestionSetProgress aq
        match aq1.questionSetProgress.find? (fun p => p.questionSetOrder == k) with
        | none => .error .questionSetNotFound
        | some qsp =>
          -- lines 2123-2128
          if qsp.status = .completed then .error .questionSetAlreadyCompleted
          else
            -- lines 2130-2133
            let aq2 := if aq1.status = .pending
              then { aq1 with status := .inProgress, startedAt := some now } else aq1
            -- lines 2135-2138
            let aq3 := if qsp.status = .notStarted then
                { aq2 with
                    questionSetProgress :=
                      updateFirst (fun p => p.questionSetOrder == k)
                        (fun p => { p with status := .inProgress, startedAt := some now })
                        aq2.questionSetProgress }
              else aq2
            -- line 2140
            let aq4 := { aq3 with currentQuestionSetOrder := some k }
            .ok { st with taker := { st.taker with
              assignedQuizzes := updateFirst (fun a => a.quizId == quizId)
                (fun _ => aq4) st.taker.assignedQuizzes } }

/-- Insertion sort on Nat lists, modelling the Array.prototype.sort call
of the order validation (on the single-digit entries 1-4 the JavaScript
lexicographic default sort coincides with the numeric order). -/
def insertSorted (x : Nat) : List Nat → List Nat
  | [] => [x]
  | y :: ys => if x ≤ y then x :: y :: ys else y :: insertSorted x ys

def sortNat (l : List Nat) : List Nat := l.foldr insertSorted []

/-- Handler POST /quiz/:quizId/set-question-order (src/routes/public.js
lines 1851-1929).  Rejected once any slot is completed; otherwise stores
the custom traversal order and stamps each slot with its position. -/
def setQuestionSetOrder (st : St) (quizId : Nat) (ord : List Nat) :
    Except RouteError St :=
  -- lines 1855-1868: must be a permutation of [1,2,3,4]
  if ¬(ord.length = 4 ∧ sortNat ord = [1, 2, 3, 4]) then .error .invalidOrderArray
  else
    match st.taker.assignedQuizzes.find? (fun aq => aq.quizId == quizId) with
    | none => .error .notAssigned
    | some aq =>
      if aq.status = .completed then .error .quizAlreadyCompleted
      else if aq.status = .inProgress ∧
          aq.questionSetProgress.any (fun p => p.status == .completed) then
        .error .cannotChangeOrderAfterSubmitting
      else
        let aq1 := initializeQuestionSetProgress
          { aq with selectedQuestionSetOrder := ord }
        let aq2 := { aq1 with
            questionSetProgress := aq1.questionSetProgress.map (fun p =>
              { p with
                  selectedOrder :=
                    some ((ord.findIdx (fun y => y == p.questionSetOrder)) + 1) }),
            currentQuestionSetOrder := ord.head? }
        .ok { st with taker := { st.taker with
          assignedQuizzes := updateFirst (fun a => a.quizId == quizId)
            (fun _ => aq2) st.taker.assignedQuizzes } }

/-! ### The operations of the subsystem as a transition system -/

inductive Op where
  | startQuiz (quizId now : Nat)
  | startQuestionSet (quizId k now : Nat)
  | setQuestionSetOrder (quizId : Nat) (ord : List Nat)
  | submitQuestionSet (quizId : Nat) (req : SubmitRequest) (now freshId : Nat)

/-- Applying one handler to the state: an error response leaves the
persistent state unchanged (the transaction aborts, nothing was saved). -/
def applyOp (st : St) : Op → St
  | .startQuiz q n => match startQuiz st q n with
    | .ok s => s
    | .error _ => st
  | .startQuestionSet q k n => match startQuestionSet st q k n with
    | .ok s => s
    | .error _ => st
  | .setQuestionSetOrder q o => match setQuestionSetOrder st q o with
    | .ok s => s
    | .error _ => st
  | .submitQuestionSet q r n f => match submitQuestionSet st q r n f with
    | .ok s => s.1
    | .error _ => st

/-- State after a submit request, errors included. -/
def submitApply (st : St) (quizId : Nat) (req : SubmitRequest) (now freshId : Nat) : St :=
  applyOp st (.submitQuestionSet quizId req now freshId)

/-! ### Transactional retry wrapper

The submit route wraps the transaction body in a retry loop
(src/routes/public.js lines 2230-2236 and 2535-2568).  The body of one
attempt is abstracted as an outcome function indexed by the attempt
counter: committed result, VersionError, or any other error. -/

inductive TxOutcome (α : Type) where
  | committed (a : α)
  | versionError
  | otherError (msg : String)

/-- Terminal answer of the retry wrapper: 200 with the committed result,
409 after exhausted retries, 500 on any other error.  Each constructor
also records how many attempts ran and the backoff sleeps (in ms) that
were taken before retries. -/
inductive RetryResult (α : Type) where
  | success (a : α) (attemptsUsed : Nat) (backoffs : List Nat)
  | conflict (attemptsUsed : Nat) (backoffs : List Nat)
  | serverError (msg : String) (attemptsUsed : Nat) (backoffs : List Nat)
  | loopExited

def MAX_RETRIES : Nat := 3

/-- Body of the while loop (src/routes/public.js lines 2236-2568).  The
fuel argument is MAX_RETRIES minus the attempt counter, so the structural
recursion mirrors the loop condition attempt < MAX_RETRIES exactly; the
loopExited case is the fall-through after the while loop, reachable only
with zero fuel.  A version error increments the counter and either
answers 409 (counter at the ceiling, lines 2544-2552) or sleeps
100 * 2 ^ (attempt - 1) ms and retries (line 2555); any other error
answers 500 immediately (lines 2559-2567). -/
def submitRetryGo (outcome : Nat → TxOutcome α) :
    Nat → Nat → Nat → List Nat → RetryResult α
  | _, 0, _, _ => .loopExited
  | attempt, fuel + 1, used, backs =>
    match outcome attempt with
    | .committed a => .success a (used + 1) backs
    | .otherError m => .serverError m (used + 1) backs
    | .versionError =>
      if MAX_RETRIES ≤ attempt + 1 then .conflict (used + 1) backs
      else submitRetryGo outcome (attempt + 1) fuel (used + 1)
        (backs ++ [100 * 2 ^ attempt])

/-- Retrying submit route entry point: attempt counter 0, full fuel. -/
def submitWithRetry (outcome : Nat → TxOutcome α) : RetryResult α :=
  submitRetryGo outcome 0 MAX_RETRIES 0 []

/-! ### Store-level uniqueness of the open submission

The latest QuizSubmission schema revision (src/unnamed/part_003, line 137)
declares a unique index on (quizId, quizTakerId) partial-filtered to
status in-progress.  A save is modelled as an upsert by document id,
rejected whenever the resulting collection would violate the index. -/

/-- Pair of documents violating the partial unique index: both match the
partial filter (status in-progress) and agree on the indexed keys. -/
def violatesInProgressIndex (a b : QuizSubmission) : Bool :=
  a.status == .inProgress && b.status == .inProgress &&
    a.quizId == b.quizId && a.quizTakerId == b.quizTakerId

/-- Whole-collection reading of the partial unique index. -/
def inProgressIndexOk : List QuizSubmission → Bool
  | [] => true
  | d :: ds => ds.all (fun e => !(violatesInProgressIndex d e)) && inProgressIndexOk ds

/-- Upsert by document id: replace the document carrying this subId, or
append the document when the id is new. -/
def upsertBySubId (store : List QuizSubmission) (doc : QuizSubmission) :
    List QuizSubmission :=
  if store.any (fun s => s.subId == doc.subId)
  then updateFirst (fun s => s.subId == doc.subId) (fun _ => doc) store
  else store ++ [doc]

/-- Save of one submission document against the indexed collection: an
upsert by subId whose result must satisfy the partial unique index,
otherwise the store rejects it with a duplicate-key error and the
collection is left unchanged. -/
def saveSubmissionDoc (store : List QuizSubmission) (doc : QuizSubmission) :
    Except String (List QuizSubmission) :=
  if inProgressIndexOk (upsertBySubId store doc)
  then .ok (upsertBySubId store doc)
  else .error "duplicate key"

/-- Number of open (in-progress) submissions of one (quiz, taker) pair. -/
def countInProgress (store : List QuizSubmission) (quizId takerId : Nat) : Nat :=
  (store.filter (fun s => s.quizId == quizId && s.quizTakerId == takerId &&
    s.status == SubStatus.inProgress)).length

/-! ### QuizTaker pre-save validation hook -/

/-- Truthiness test of the JavaScript expression !this.accessCode:
undefined, null and the empty string are falsy. -/
def missingAccessCode : Option String → Bool
  | none => true
  | some s => s.isEmpty

/-- Validation pre-save hook of QuizTakerSchema (src/models/QuizTaker.js
lines 278-287): a premium taker without an access code, or a regular
taker holding assigned quizzes, throws and the save is rejected. -/
def quizTakerPreSave (t : QuizTaker) : Option String :=
  if t.accountType = .premium ∧ missingAccessCode t.accessCode then
    some "Premium students must have an access code"
  else if t.accountType = .regular ∧ 0 < t.assignedQuizzes.length then
    some "Regular students cannot have assigned quizzes"
  else none

/-- Persisting a QuizTaker document: the pre-save hook runs first and a
thrown error aborts the save, leaving the collection unchanged. -/
def saveQuizTaker (store : List QuizTaker) (t : QuizTaker) :
    Except String (List QuizTaker) :=
  match quizTakerPreSave t with
  | some e => .error e
  | none => .ok (if store.any (fun u => u.takerId == t.takerId)
      then updateFirst (fun u => u.takerId == t.takerId) (fun _ => t) store
      else store ++ [t])

/-! ### Concrete fixture used by witnesses and counterexamples

One premium taker, one assigned four-set quiz whose first set holds the
multiple-choice question of the spec example (options A. Paris / B. Lyon,
stored correct answer A, 5 points). -/

def exQuestionMC : Question :=
  { qid := 10, qtype := .multipleChoice, options := ["A. Paris", "B. Lyon"],
    correctAnswer := "A", points := 5 }

def exQuestionTF : Question :=
  { qid := 11, qtype := .trueFalse, options := [], correctAnswer := "true", points := 3 }

def exQS1 : QuestionSet := { order := 1, questions := [exQuestionMC], totalPoints := 5 }

def exQS2 : QuestionSet := { order := 2, questions := [exQuestionTF], totalPoints := 3 }

def exQS3 : QuestionSet := { order := 3, questions := [], totalPoints := 0 }

def exQS4 : QuestionSet := { order := 4, questions := [], totalPoints := 0 }

def exQuiz : Quiz :=
  { quizId := 100, questionSets := [exQS1, exQS2, exQS3, exQS4], totalPoints := 8 }

def exAssigned : AssignedQuiz :=
  { quizId := 100, status := .inProgress, startedAt := some 1000, completedAt := none,
    submissionId := none,
    questionSetProgress :=
      [emptyProgress 1, emptyProgress 2, emptyProgress 3, emptyProgress 4],
    selectedQuestionSetOrder := [], currentQuestionSetOrder := none }

def exTaker : QuizTaker :=
  { takerId := 7, accountType := .premium, accessCode := some "ABC123XYZ",
    assignedQuizzes := [exAssigned], quizzesTaken := [] }

def exSt : St := { quizzes := [exQuiz], taker := exTaker, subs := [] }

/-- Submit request carrying the full option text of the correct option. -/
def exReqParis : SubmitRequest :=
  { questionSetOrder := 1,
    answers := [{ questionId := 10, answer := "A. Paris" }],
    isFinalSubmission := false }

/-- Same request flagged as the final submission. -/
def exReqParisFinal : SubmitRequest :=
  { questionSetOrder := 1,
    answers := [{ questionId := 10, answer := "A. Paris" }],
    isFinalSubmission := true }

/-! ### Lemmas about updateFirst and find? -/

theorem updateFirst_of_find?_none {p : α → Bool} {f : α → α} {l : List α}
    (h : l.find? p = none) : updateFirst p f l = l := by
  induction l with
  | nil => rfl
  | cons a as ih =>
    cases hpa : p a with
    | true => simp [List.find?_cons, hpa] at h
    | false =>
      rw [List.find?_cons, hpa] at h
      simp [updateFirst, hpa, ih h]

theorem find?_updateFirst_self {p : α → Bool} {f : α → α} {l : List α} {a : α}
    (h : l.find? p = some a) (hf : p (f a) = true) :
    (updateFirst p f l).find? p = some (f a) := by
  induction l with
  | nil => simp at h
  | cons b bs ih =>
    cases hpb : p b with
    | true =>
      rw [List.find?_cons, hpb] at h
      simp only [Option.some.injEq] at h
      subst h
      simp [updateFirst, hpb, List.find?_cons, hf]
    | false =>
      rw [List.find?_cons, hpb] at h
      simp [updateFirst, hpb, List.find?_cons, ih h]

theorem find?_updateFirst_disjoint {p q : α → Bool} {f : α → α} {l : List α}
    (h : ∀ a, p a = true → q a = false ∧ q (f a) = false) :
    (updateFirst p f l).find? q = l.find? q := by
  induction l with
  | nil => rfl
  | cons b bs ih =>
    cases hpb : p b with
    | true =>
      obtain ⟨h1, h2⟩ := h b hpb
      simp [updateFirst, hpb, List.find?_cons, h1, h2]
    | false =>
      cases hqb : q b with
      | true => simp [updateFirst, hpb, List.find?_cons, hqb]
      | false => simp [updateFirst, hpb, List.find?_cons, hqb, ih]

theorem map_updateFirst (p : α → Bool) (f : α → α) (g : α → β) (l : List α)
    (h : ∀ a, g (f a) = g a) : (updateFirst p f l).map g = l.map g := by
  induction l with
  | nil => rfl
  | cons b bs ih =>
    cases hpb : p b with
    | true => simp [updateFirst, hpb, h]
    | false => simp [updateFirst, hpb, ih]

theorem mem_updateFirst {p : α → Bool} {f : α → α} {l : List α} {b : α}
    (hb : b ∈ updateFirst p f l) : b ∈ l ∨ ∃ a, a ∈ l ∧ p a = true ∧ b = f a := by
  induction l with
  | nil => simp [updateFirst] at hb
  | cons c cs ih =>
    cases hpc : p c with
    | true =>
      rw [updateFirst, if_pos hpc] at hb
      rcases List.mem_cons.mp hb with h1 | h1
      · exact Or.inr ⟨c, List.mem_cons_self c cs, hpc, h1⟩
      · exact Or.inl (List.mem_cons_of_mem c h1)
    | false =>
      rw [updateFirst, if_neg (by simp [hpc])] at hb
      rcases List.mem_cons.mp hb with h1 | h1
      · exact Or.inl (h1 ▸ List.mem_cons_self c cs)
      · rcases ih h1 with h2 | ⟨a, ha, hpa, hfa⟩
        · exact Or.inl (List.mem_cons_of_mem c h2)
        · exact Or.inr ⟨a, List.mem_cons_of_mem c ha, hpa, hfa⟩

theorem find?_map_comm (q : α → Bool) (f : α → α) (l : List α)
    (h : ∀ a, q (f a) = q a) : (l.map f).find? q = (l.find? q).map f := by
  induction l with
  | nil => rfl
  | cons b bs ih =>
    cases hqb : q b with
    | true => simp [List.find?_cons, hqb, h]
    | false => simp [List.find?_cons, hqb, h, ih]

/-! ### Views of the state and small field lemmas -/

/-- Status of the assignment of one quiz on the taker document. -/
def assignedStatus (st : St) (quizId : Nat) : Option AQStatus :=
  (st.taker.assignedQuizzes.find? (fun a => a.quizId == quizId)).map (fun a => a.status)

/-- Numeric height of the assignment state machine
pending, in-progress, completed. -/
def AQStatus.rank : AQStatus → Nat
  | .pending => 0
  | .inProgress => 1
  | .completed => 2

@[simp] theorem initializeQuestionSetProgress_quizId (aq : AssignedQuiz) :
    (initializeQuestionSetProgress aq).quizId = aq.quizId := by
  unfold initializeQuestionSetProgress
  split <;> rfl

@[simp] theorem initializeQuestionSetProgress_status (aq : AssignedQuiz) :
    (initializeQuestionSetProgress aq).status = aq.status := by
  unfold initializeQuestionSetProgress
  split <;> rfl

@[simp] theorem initIfEmpty_quizId (aq : AssignedQuiz) :
    (initIfEmpty aq).quizId = aq.quizId := by
  unfold initIfEmpty
  split <;> simp

@[simp] theorem initIfEmpty_status (aq : AssignedQuiz) :
    (initIfEmpty aq).status = aq.status := by
  unfold initIfEmpty
  split <;> simp

@[simp] theorem completeSlotProgress_quizId (aq : AssignedQuiz) (k s t n : Nat) :
    (completeSlotProgress aq k s t n).quizId = aq.quizId := rfl

@[simp] theorem completeSlotProgress_status (aq : AssignedQuiz) (k s t n : Nat) :
    (completeSlotProgress aq k s t n).status = aq.status := rfl

@[simp] theorem completeSlotProgress_startedAt (aq : AssignedQuiz) (k s t n : Nat) :
    (completeSlotProgress aq k s t n).startedAt = aq.startedAt := rfl

@[simp] theorem completeSlotProgress_questionSetProgress (aq : AssignedQuiz)
    (k s t n : Nat) : (completeSlotProgress aq k s t n).questionSetProgress =
      updateFirst (fun p => p.questionSetOrder == k)
        (fun p => { p with
            status := .completed, completedAt := some n,
            score := s, totalPoints := t })
        aq.questionSetProgress := rfl

/-- Elimination principle for a committed submit: every guard of the
chain passed and the outcome is the success path on the initialized
assigned-quiz entry. -/
theorem submitQuestionSet_ok_cases {st : St} {quizId : Nat} {req : SubmitRequest}
    {now freshId : Nat} {st1 : St} {resp : SubmitResponse}
    (hok : submitQuestionSet st quizId req now freshId = .ok (st1, resp)) :
    ∃ aq quiz qs,
      st.taker.assignedQuizzes.find? (fun a => a.quizId == quizId) = some aq ∧
      aq.status ≠ .completed ∧
      st.quizzes.find? (fun qz => qz.quizId == quizId) = some quiz ∧
      quiz.questionSets.find? (fun q => q.order == req.questionSetOrder) = some qs ∧
      ((initIfEmpty aq).questionSetProgress.find?
        (fun p => p.questionSetOrder == req.questionSetOrder)).any
        (fun p => p.status == .completed) = false ∧
      ¬(req.questionSetOrder < 1 ∨ 4 < req.questionSetOrder) ∧
      (st1, resp) = submitSuccess st quizId req now freshId (initIfEmpty aq) quiz qs := by
  unfold submitQuestionSet at hok
  by_cases hk : req.questionSetOrder < 1 ∨ 4 < req.questionSetOrder
  · rw [if_pos hk] at hok
    cases hok
  · rw [if_neg hk] at hok
    cases hfind : st.taker.assignedQuizzes.find? (fun a => a.quizId == quizId) with
    | none => rw [hfind] at hok; cases hok
    | some aq =>
      rw [hfind] at hok
      dsimp only at hok
      by_cases hst : aq.status = .completed
      · rw [if_pos hst] at hok; cases hok
      · rw [if_neg hst] at hok
        cases hquiz : st.quizzes.find? (fun qz => qz.quizId == quizId) with
        | none => rw [hquiz] at hok; cases hok
        | some quiz =>
          rw [hquiz] at hok
          dsimp only at hok
          cases hqs : quiz.questionSets.find?
              (fun q => q.order == req.questionSetOrder) with
          | none => rw [hqs] at hok; cases hok
          | some qs =>
            rw [hqs] at hok
            dsimp only at hok
            by_cases hguard : ((initIfEmpty aq).questionSetProgress.find?
                (fun p => p.questionSetOrder == req.questionSetOrder)).any
                (fun p => p.status == .completed) = true
            · rw [if_pos hguard] at hok; cases hok
            · rw [if_neg hguard] at hok
              injection hok with hok
              exact ⟨aq, quiz, qs, rfl, hst, rfl, hqs,
                by simpa using hguard, hk, hok.symm⟩

/-- Status of the assignment after the success path of a submit. -/
theorem submitSuccess_assignedStatus (st : St) (quizId : Nat) (req : SubmitRequest)
    (now freshId : Nat) (aq aq1 : AssignedQuiz) (quiz : Quiz) (qs : QuestionSet)
    (hfind : st.taker.assignedQuizzes.find? (fun a => a.quizId == quizId) = some aq)
    (hq1 : aq1.quizId = aq.quizId) :
    assignedStatus (submitSuccess st quizId req now freshId aq1 quiz qs).1 quizId =
      some (if req.isFinalSubmission then AQStatus.completed
            else if aq1.status = .pending then .inProgress else aq1.status) := by
  have hpred : (aq.quizId == quizId) = true := by
    have h := List.find?_some hfind
    simpa using h
  unfold submitSuccess assignedStatus
  dsimp only
  rw [find?_updateFirst_self hfind
    (by cases hfin : req.isFinalSubmission <;>
        by_cases hp : aq1.status = .pending <;>
        simp [hfin, hp, completeSlotProgress_quizId, hq1, hpred])]
  cases hfin : req.isFinalSubmission <;>
    by_cases hp : aq1.status = .pending <;>
    simp [hfin, hp]

/-! ### Claim C2 -/

/-- C2 counterexample: on the fixture state no slot is completed, so slot
1 is not the last outstanding slot (all four are outstanding), yet a
submit of slot 1 carrying isFinalSubmission = true succeeds and moves the
assignment status to completed, where the claim requires the status to
stay in-progress. -/
theorem c2_counterexample :
    (exAssigned.questionSetProgress.filter
      (fun p => p.status == QSStatus.completed)).length = 0 ∧
    exReqParisFinal.isFinalSubmission = true ∧
    (submitQuestionSet exSt 100 exReqParisFinal 2000 500).toOption.isSome = true ∧
    assignedStatus (submitApply exSt 100 exReqParisFinal 2000 500) 100 =
      some .completed := by
  refine ⟨by decide, by decide, by decide, by decide⟩

/-- C2 (amended): on a committed submit the assignment status becomes
completed exactly when the request carried isFinalSubmission = true; the
handler performs no last-outstanding-slot check, so the flag alone
decides the transition.  A rejected submit leaves the state untouched,
and no submit ever moves the assignment status backward in the order
pending, in-progress, completed. -/
theorem c2_final_flag_gating (st : St) (quizId : Nat) (req : SubmitRequest)
    (now freshId : Nat) :
    (∀ st1 resp, submitQuestionSet st quizId req now freshId = .ok (st1, resp) →
      (assignedStatus st1 quizId = some .completed ↔ req.isFinalSubmission = true)) ∧
    (∀ e, submitQuestionSet st quizId req now freshId = .error e →
      submitApply st quizId req now freshId = st) ∧
    (∀ s0 s1, assignedStatus st quizId = some s0 →
      assignedStatus (submitApply st quizId req now freshId) quizId = some s1 →
      s0.rank ≤ s1.rank) := by
  refine ⟨?_, ?_, ?_⟩
  · intro st1 resp hok
    obtain ⟨aq, quiz, qs, hfind, hst, hquiz, hqs, hguard, hk, hpair⟩ :=
      submitQuestionSet_ok_cases hok
    have hst1 : st1 =
        (submitSuccess st quizId req now freshId (initIfEmpty aq) quiz qs).1 :=
      congrArg Prod.fst hpair
    rw [hst1, submitSuccess_assignedStatus st quizId req now freshId aq _ quiz qs
      hfind (initIfEmpty_quizId aq)]
    by_cases hfin : req.isFinalSubmission = true
    · simp [hfin]
    · have hfin' : req.isFinalSubmission = false := by simpa using hfin
      by_cases hp : (initIfEmpty aq).status = .pending
      · rw [initIfEmpty_status] at hp
        simp [hfin', hp]
      · simp only [hfin', Bool.false_eq_true, if_false, hp, Option.some.injEq,
          iff_false]
        rw [initIfEmpty_status]
        exact hst
  · intro e herr
    simp [submitApply, applyOp, herr]
  · intro s0 s1 h0 h1
    cases hres : submitQuestionSet st quizId req now freshId with
    | error e =>
      have hsame : submitApply st quizId req now freshId = st := by
        simp [submitApply, applyOp, hres]
      rw [hsame, h0] at h1
      injection h1 with h1
      rw [h1]
    | ok out =>
      obtain ⟨st1, resp⟩ := out
      obtain ⟨aq, quiz, qs, hfind, hst, hquiz, hqs, hguard, hk, hpair⟩ :=
        submitQuestionSet_ok_cases hres
      have happ : submitApply st quizId req now freshId = st1 := by
        simp [submitApply, applyOp, hres]
      have hst1 : st1 =
          (submitSuccess st quizId req now freshId (initIfEmpty aq) quiz qs).1 :=
        congrArg Prod.fst hpair
      rw [happ, hst1, submitSuccess_assignedStatus st quizId req now freshId aq _
        quiz qs hfind (initIfEmpty_quizId aq)] at h1
      have hs0 : s0 = aq.status := by
        rw [assignedStatus, hfind] at h0
        simpa using h0.symm
      injection h1 with h1
      rw [hs0, ← h1]
      by_cases hfin : req.isFinalSubmission = true
      · rw [if_pos hfin]
        cases aq.status <;> simp [AQStatus.rank]
      · rw [if_neg hfin]
        by_cases hp : (initIfEmpty aq).status = .pending
        · rw [if_pos hp]
          rw [initIfEmpty_status] at hp
          rw [hp]
          simp [AQStatus.rank]
        · rw [if_neg hp, initIfEmpty_status]

/-- Witness for c2_final_flag_gating: a request with slot number 0 is
rejected and leaves the state unchanged. -/
theorem c2_final_flag_gating_witness :
    submitApply exSt 100 ⟨0, [], false⟩ 2000 500 = exSt :=
  (c2_final_flag_gating exSt 100 ⟨0, [], false⟩ 2000 500).2.1
    RouteError.invalidQuestionSetOrder rfl

/-! ### Further handler characterization lemmas -/

theorem updateFirst_length {p : α → Bool} {f : α → α} (l : List α) :
    (updateFirst p f l).length = l.length := by
  induction l with
  | nil => rfl
  | cons a as ih =>
    by_cases hpa : p a = true
    · simp [updateFirst, hpa]
    · simp [updateFirst, hpa, ih]

theorem initializeQuestionSetProgress_eq_self {aq : AssignedQuiz}
    (h : aq.questionSetProgress ≠ []) : initializeQuestionSetProgress aq = aq := by
  unfold initializeQuestionSetProgress
  simp [List.isEmpty_iff, h]

theorem initIfEmpty_eq_self {aq : AssignedQuiz}
    (h : aq.questionSetProgress ≠ []) : initIfEmpty aq = aq := by
  unfold initIfEmpty
  simp [List.isEmpty_iff, h]

theorem submitSuccess_quizzes (st : St) (quizId : Nat) (req : SubmitRequest)
    (now freshId : Nat) (aq1 : AssignedQuiz) (quiz : Quiz) (qs : QuestionSet) :
    (submitSuccess st quizId req now freshId aq1 quiz qs).1.quizzes = st.quizzes := rfl

/-- Characterization of the taker document written by the submit success
path: the assigned entry is replaced by a value aq4 whose progress marks
the submitted slot completed (it carries the slot score sc) and whose
status is completed exactly on a final submission. -/
theorem submitSuccess_assigned_cases (st : St) (quizId : Nat) (req : SubmitRequest)
    (now freshId : Nat) (aq1 : AssignedQuiz) (quiz : Quiz) (qs : QuestionSet) :
    ∃ aq4 sc,
      (submitSuccess st quizId req now freshId aq1 quiz qs).1.taker.assignedQuizzes =
        updateFirst (fun a => a.quizId == quizId) (fun _ => aq4)
          st.taker.assignedQuizzes ∧
      aq4.quizId = aq1.quizId ∧
      aq4.status = (if req.isFinalSubmission then .completed
                    else if aq1.status = .pending then .inProgress else aq1.status) ∧
      aq4.questionSetProgress =
        updateFirst (fun p => p.questionSetOrder == req.questionSetOrder)
          (fun p => { p with
              status := .completed, completedAt := some now,
              score := sc, totalPoints := qs.totalPoints })
          aq1.questionSetProgress := by
  unfold submitSuccess
  dsimp only
  refine ⟨_, ((req.answers.filterMap (gradeSubmittedAnswer qs req.questionSetOrder)).map
    (fun a => a.pointsAwarded)).sum, rfl, ?_, ?_, ?_⟩
  · by_cases hfin : req.isFinalSubmission = true <;>
      by_cases hp : aq1.status = .pending <;>
      simp [hfin, hp, completeSlotProgress]
  · by_cases hfin : req.isFinalSubmission = true <;>
      by_cases hp : aq1.status = .pending <;>
      simp [hfin, hp, completeSlotProgress]
  · by_cases hfin : req.isFinalSubmission = true <;>
      by_cases hp : aq1.status = .pending <;>
      simp [hfin, hp, completeSlotProgress]

/-! ### Claim C4 -/

/-- C4 counterexample: the first submit of slot 1 succeeds, but
resubmitting the identical (questionSetOrder, answers) pair is rejected
with the duplicate-submission error instead of replacing the stored
answers, because the first (non-final) submit already marked the slot
progress completed. -/
theorem c4_counterexample :
    (submitQuestionSet exSt 100 exReqParis 2000 500).toOption.isSome = true ∧
    submitQuestionSet (submitApply exSt 100 exReqParis 2000 500) 100 exReqParis
      3000 501 = .error .questionSetAlreadySubmitted := by
  exact ⟨by decide, rfl⟩

/-- C4 (amended): every successful submit marks the slot progress
completed, so submitting the same (questionSetOrder, answers) pair twice
in a row has the second call rejected with the duplicate-submission error
and the state left exactly as after the first call: stored answers, slot
score and overall score are unchanged (rather than replaced by a second
merge).  The hypothesis hwf states the slot bookkeeping the routes always
maintain: the progress array is empty (the call initializes it) or holds
a record for the targeted slot. -/
theorem c4_resubmission_rejected (st : St) (quizId : Nat) (req : SubmitRequest)
    (now freshId now2 freshId2 : Nat) (st1 : St) (resp : SubmitResponse)
    (hok : submitQuestionSet st quizId req now freshId = .ok (st1, resp))
    (hfin : req.isFinalSubmission = false)
    (hwf : ∀ aq, st.taker.assignedQuizzes.find? (fun a => a.quizId == quizId) =
        some aq → aq.questionSetProgress = [] ∨
        ∃ p ∈ aq.questionSetProgress, p.questionSetOrder = req.questionSetOrder) :
    submitQuestionSet st1 quizId req now2 freshId2 =
      .error .questionSetAlreadySubmitted ∧
    submitApply st1 quizId req now2 freshId2 = st1 := by
  obtain ⟨aq, quiz, qs, hfind, hst, hquiz, hqs, hguard, hk, hpair⟩ :=
    submitQuestionSet_ok_cases hok
  have hst1 : st1 =
      (submitSuccess st quizId req now freshId (initIfEmpty aq) quiz qs).1 :=
    congrArg Prod.fst hpair
  obtain ⟨aq4, sc, hassigned, hq4id, hq4status, hq4prog⟩ :=
    submitSuccess_assigned_cases st quizId req now freshId (initIfEmpty aq) quiz qs
  have hpredaq : (aq.quizId == quizId) = true := by
    have h := List.find?_some hfind
    simpa using h
  have hpredaq4 : (aq4.quizId == quizId) = true := by
    rw [hq4id, initIfEmpty_quizId]
    exact hpredaq
  -- the entry found by the second call
  have hfind1 : st1.taker.assignedQuizzes.find? (fun a => a.quizId == quizId) =
      some aq4 := by
    rw [hst1, hassigned]
    exact find?_updateFirst_self hfind hpredaq4
  -- its status is not completed
  have hstatus4 : ¬aq4.status = .completed := by
    rw [hq4status, hfin]
    simp only [Bool.false_eq_true, if_false, initIfEmpty_status]
    by_cases hp : aq.status = .pending
    · simp [hp]
    · rw [if_neg hp]
      exact hst
  -- the slot record of the first call is found in aq1 and marked completed
  have hfound1 : ∃ p0, (initIfEmpty aq).questionSetProgress.find?
      (fun p => p.questionSetOrder == req.questionSetOrder) = some p0 := by
    rcases hwf aq hfind with hempty | ⟨p, hmem, horder⟩
    · have h14 : 1 ≤ req.questionSetOrder ∧ req.questionSetOrder ≤ 4 := by
        constructor <;> omega
      rw [initIfEmpty, hempty]
      simp only [List.isEmpty_nil, if_pos]
      rw [initializeQuestionSetProgress]
      rw [hempty]
      simp only [List.isEmpty_nil, if_pos]
      obtain ⟨h1, h4⟩ := h14
      interval_cases h : req.questionSetOrder <;> simp [emptyProgress]
    · have hne : aq.questionSetProgress ≠ [] := by
        intro hcontra
        rw [hcontra] at hmem
        cases hmem
      rw [initIfEmpty_eq_self hne]
      have : (aq.questionSetProgress.find?
          (fun p => p.questionSetOrder == req.questionSetOrder)).isSome := by
        rw [List.find?_isSome]
        exact ⟨p, hmem, by simp [horder]⟩
      obtain ⟨p0, hp0⟩ := Option.isSome_iff_exists.mp this
      exact ⟨p0, hp0⟩
  obtain ⟨p0, hp0⟩ := hfound1
  -- after the first call that slot is completed
  have hslot4 : aq4.questionSetProgress.find?
      (fun p => p.questionSetOrder == req.questionSetOrder) =
      some { p0 with
        status := .completed, completedAt := some now,
        score := sc, totalPoints := qs.totalPoints } := by
    rw [hq4prog]
    exact find?_updateFirst_self hp0 (by simpa using List.find?_some hp0)
  have hne4 : aq4.questionSetProgress ≠ [] := by
    intro hcontra
    rw [hcontra] at hslot4
    cases hslot4
  have hmain : submitQuestionSet st1 quizId req now2 freshId2 =
      .error .questionSetAlreadySubmitted := by
    unfold submitQuestionSet
    rw [if_neg hk, hfind1]
    dsimp only
    rw [if_neg hstatus4]
    have hquiz1 : st1.quizzes.find? (fun qz => qz.quizId == quizId) = some quiz := by
      rw [hst1, submitSuccess_quizzes]
      exact hquiz
    rw [hquiz1]
    dsimp only
    rw [hqs]
    dsimp only
    rw [initIfEmpty_eq_self hne4, hslot4]
    simp
  refine ⟨hmain, ?_⟩
  simp [submitApply, applyOp, hmain]

/-- Witness for c4_resubmission_rejected at the fixture state. -/
theorem c4_resubmission_rejected_witness :
    submitQuestionSet (submitApply exSt 100 exReqParis 2000 500) 100 exReqParis
      3000 501 = .error .questionSetAlreadySubmitted :=
  (c4_resubmission_rejected exSt 100 exReqParis 2000 500 3000 501
    (submitApply exSt 100 exReqParis 2000 500)
    { subId := 500, questionSetScore := 0, questionSetTotalPoints := 5,
      overallScore := 0, overallTotalPoints := 8, status := .inProgress,
      isFinalSubmission := false, attemptNumber := 1 }
    rfl rfl
    (by
      intro aq h
      rw [show exSt.taker.assignedQuizzes.find? (fun a => a.quizId == 100) =
        some exAssigned from rfl] at h
      cases h
      exact Or.inr ⟨emptyProgress 1, by decide, by decide⟩)).1

/-! ### Claim C6 -/

/-- Well-formedness of the per-slot submission entries: no duplicate slot
number and every slot number between 1 and 4. -/
def slotEntriesOk (l : List QSSubmissionEntry) : Prop :=
  (l.map (fun e => e.questionSetOrder)).Nodup ∧
  ∀ e ∈ l, 1 ≤ e.questionSetOrder ∧ e.questionSetOrder ≤ 4

def submissionSlotsOk (sub : QuizSubmission) : Prop :=
  slotEntriesOk sub.questionSetSubmissions

/-- The update-or-append step of the aggregator preserves slot
well-formedness: the update branch keeps the slot multiset, the append
branch only fires when the slot is absent. -/
theorem slotEntriesOk_update (l : List QSSubmissionEntry) (k : Nat)
    (hk1 : 1 ≤ k) (hk4 : k ≤ 4) (h : slotEntriesOk l) (n s t o : Nat) :
    slotEntriesOk (if l.any (fun e => e.questionSetOrder == k) then
        updateFirst (fun e => e.questionSetOrder == k)
          (fun e => { e with
              submittedAt := n, score := s, totalPoints := t, orderAnswered := o }) l
      else l ++ [{ questionSetOrder := k, submittedAt := n, score := s,
                   totalPoints := t, orderAnswered := o }]) := by
  obtain ⟨hnd, hb⟩ := h
  by_cases hex : l.any (fun e => e.questionSetOrder == k) = true
  · rw [if_pos hex]
    constructor
    · rw [map_updateFirst (fun e => e.questionSetOrder == k)
        (fun e => { e with
            submittedAt := n, score := s, totalPoints := t, orderAnswered := o })
        (fun e => e.questionSetOrder) l (fun e => rfl)]
      exact hnd
    · intro e he
      rcases mem_updateFirst he with hold | ⟨a, ha, _, hfa⟩
      · exact hb e hold
      · rw [hfa]
        exact hb a ha
  · rw [if_neg hex]
    have habs : ∀ e ∈ l, ¬e.questionSetOrder = k := by
      intro e he hcontra
      exact hex (List.any_eq_true.mpr ⟨e, he, by simp [hcontra]⟩)
    constructor
    · rw [List.map_append]
      rw [List.nodup_append]
      refine ⟨hnd, List.nodup_singleton _, ?_⟩
      intro x hx hx1
      obtain ⟨e, he, hxe⟩ := List.mem_map.mp hx
      simp only [List.map_cons, List.map_nil, List.mem_singleton] at hx1
      exact habs e he (hxe.trans hx1)
    · intro e he
      rcases List.mem_append.mp he with hold | hnew
      · exact hb e hold
      · rw [List.mem_singleton] at hnew
        rw [hnew]
        exact ⟨hk1, hk4⟩

/-- A well-formed slot list has at most four entries: its slot numbers
are distinct and drawn from 1..4. -/
theorem slotEntriesOk_length_le_four {l : List QSSubmissionEntry}
    (h : slotEntriesOk l) : l.length ≤ 4 := by
  obtain ⟨hnd, hb⟩ := h
  have hsub : (l.map (fun e => e.questionSetOrder)).toFinset ⊆ Finset.Icc 1 4 := by
    intro x hx
    rw [List.mem_toFinset] at hx
    obtain ⟨e, he, hxe⟩ := List.mem_map.mp hx
    rw [Finset.mem_Icc]
    rw [← hxe]
    exact hb e he
  have hcard := Finset.card_le_card hsub
  rw [List.toFinset_card_of_nodup hnd, Nat.card_Icc] at hcard
  simpa using hcard

theorem mergeSlotAnswers_entries (sub : QuizSubmission) (k : Nat)
    (g : List GradedAnswer) (s t o n : Nat) :
    (mergeSlotAnswers sub k g s t o n).questionSetSubmissions =
      if sub.questionSetSubmissions.any (fun e => e.questionSetOrder == k) then
        updateFirst (fun e => e.questionSetOrder == k)
          (fun e => { e with
              submittedAt := n, score := s, totalPoints := t, orderAnswered := o })
          sub.questionSetSubmissions
      else sub.questionSetSubmissions ++
        [{ questionSetOrder := k, submittedAt := n, score := s,
           totalPoints := t, orderAnswered := o }] := rfl

/-- Every submission stored by the submit success path is slot
well-formed, provided the incoming store is. -/
theorem submitSuccess_subs_slotsOk (st : St) (quizId : Nat) (req : SubmitRequest)
    (now freshId : Nat) (aq1 : AssignedQuiz) (quiz : Quiz) (qs : QuestionSet)
    (h : ∀ sub ∈ st.subs, submissionSlotsOk sub)
    (hk1 : 1 ≤ req.questionSetOrder) (hk4 : req.questionSetOrder ≤ 4) :
    ∀ sub ∈ (submitSuccess st quizId req now freshId aq1 quiz qs).1.subs,
      submissionSlotsOk sub := by
  intro sub hmem
  unfold submitSuccess at hmem
  dsimp only at hmem
  cases hfound : st.subs.find? (subMatches quiz.quizId st.taker.takerId) with
  | some s =>
    rw [hfound] at hmem
    dsimp only at hmem
    rcases mem_updateFirst hmem with hold | ⟨a, ha, hpa, hfa⟩
    · exact h sub hold
    · have hs : submissionSlotsOk s := h s (List.mem_of_find?_eq_some hfound)
      rw [hfa]
      by_cases hfin : req.isFinalSubmission = true <;>
        · rw [submissionSlotsOk]
          simp only [hfin, Bool.false_eq_true, if_true, if_false]
          rw [mergeSlotAnswers_entries]
          exact slotEntriesOk_update _ _ hk1 hk4 hs _ _ _ _
  | none =>
    rw [hfound] at hmem
    dsimp only at hmem
    rcases List.mem_append.mp hmem with hold | hnew
    · exact h sub hold
    · rw [List.mem_singleton] at hnew
      have hnewsub : submissionSlotsOk (newSubmission quiz st.taker.takerId st.subs
          (if aq1.status = .pending
            then { aq1 with status := .inProgress, startedAt := some now } else aq1)
          now freshId) := by
        rw [submissionSlotsOk, newSubmission]
        exact ⟨List.nodup_nil, by intro e he; cases he⟩
      rw [hnew]
      by_cases hfin : req.isFinalSubmission = true <;>
        · rw [submissionSlotsOk]
          simp only [hfin, Bool.false_eq_true, if_true, if_false]
          rw [mergeSlotAnswers_entries]
          exact slotEntriesOk_update _ _ hk1 hk4 hnewsub _ _ _ _

/-- One submit request, applied to the state (a rejected request changes
nothing), preserves slot well-formedness of every stored submission. -/
theorem submitApply_subs_slotsOk (st : St) (quizId : Nat) (req : SubmitRequest)
    (now freshId : Nat) (h : ∀ sub ∈ st.subs, submissionSlotsOk sub) :
    ∀ sub ∈ (submitApply st quizId req now freshId).subs, submissionSlotsOk sub := by
  intro sub hmem
  cases hres : submitQuestionSet st quizId req now freshId with
  | error e =>
    rw [submitApply, applyOp, hres] at hmem
    exact h sub hmem
  | ok out =>
    obtain ⟨st1, resp⟩ := out
    obtain ⟨aq, quiz, qs, hfind, hst, hquiz, hqs, hguard, hk, hpair⟩ :=
      submitQuestionSet_ok_cases hres
    rw [submitApply, applyOp, hres] at hmem
    dsimp only at hmem
    have hst1 : st1 =
        (submitSuccess st quizId req now freshId (initIfEmpty aq) quiz qs).1 :=
      congrArg Prod.fst hpair
    rw [hst1] at hmem
    exact submitSuccess_subs_slotsOk st quizId req now freshId (initIfEmpty aq)
      quiz qs h (by omega) (by omega) sub hmem

/-- A sequence of submit calls (quizId, request, now, freshId). -/
def applySubmitSeq (st : St) : List (Nat × SubmitRequest × Nat × Nat) → St
  | [] => st
  | c :: rest => applySubmitSeq (submitApply st c.1 c.2.1 c.2.2.1 c.2.2.2) rest

/-- C6: after any sequence of slot submissions starting from a store
whose submissions are slot well-formed (the empty store in particular),
every stored submission keeps at most one questionSetSubmissions entry
per slot number (a re-submission updates the entry in place), every entry
has a slot number between 1 and 4, and the list never exceeds 4
entries. -/
theorem c6_slot_uniqueness (st : St) (calls : List (Nat × SubmitRequest × Nat × Nat))
    (h : ∀ sub ∈ st.subs, submissionSlotsOk sub) :
    ∀ sub ∈ (applySubmitSeq st calls).subs,
      submissionSlotsOk sub ∧ sub.questionSetSubmissions.length ≤ 4 := by
  induction calls generalizing st with
  | nil =>
    intro sub hmem
    exact ⟨h sub hmem, slotEntriesOk_length_le_four (h sub hmem)⟩
  | cons c rest ih =>
    intro sub hmem
    exact ih (submitApply st c.1 c.2.1 c.2.2.1 c.2.2.2)
      (submitApply_subs_slotsOk st c.1 c.2.1 c.2.2.1 c.2.2.2 h) sub hmem

/-- Witness for c6_slot_uniqueness: the submission document stored by one
fixture submit call. -/
theorem c6_slot_uniqueness_witness :
    submissionSlotsOk
      { subId := 500, quizId := 100, quizTakerId := 7,
        answers := [{ questionId := 10, questionSetOrder := 1,
                      questionType := .multipleChoice, answer := "A. Paris",
                      pointsPossible := 5, pointsAwarded := 0,
                      isCorrect := some false }],
        questionSetSubmissions := [{ questionSetOrder := 1, submittedAt := 2000,
                                     score := 0, totalPoints := 5,
                                     orderAnswered := 1 }],
        startedAt := some 1000, submittedAt := 2000, timeTaken := 0, score := 0,
        totalPoints := 8, status := .inProgress,
        questionSetOrderUsed := [1, 2, 3, 4], attemptNumber := 1 } ∧
    ([{ questionSetOrder := 1, submittedAt := 2000, score := 0, totalPoints := 5,
        orderAnswered := 1 }] : List QSSubmissionEntry).length ≤ 4 :=
  c6_slot_uniqueness exSt [(100, exReqParis, 2000, 500)]
    (by intro sub hmem; simp [exSt] at hmem) _ (by decide)

/-! ### Claim C5 -/

/-- Fields of a slot progress record the claim declares immutable once
completed: status, both timestamps, score and point total (selectedOrder,
a display ordering stamp, is not among them). -/
def slotFrozen (p : QSProgress) : QSStatus × Option Nat × Option Nat × Nat × Nat :=
  (p.status, p.startedAt, p.completedAt, p.score, p.totalPoints)

/-- The progress record of slot k of the assignment of one quiz. -/
def slotRecord (st : St) (quizId k : Nat) : Option QSProgress :=
  (st.taker.assignedQuizzes.find? (fun a => a.quizId == quizId)).bind
    (fun aq => aq.questionSetProgress.find? (fun q => q.questionSetOrder == k))

/-- A submit for a slot whose progress is completed is rejected (at the
duplicate-submission guard, or by an earlier guard of the chain). -/
theorem submit_slot_completed_errors (st : St) (quizId k : Nat)
    (aq0 : AssignedQuiz) (p : QSProgress)
    (hfind : st.taker.assignedQuizzes.find? (fun a => a.quizId == quizId) = some aq0)
    (hinner : aq0.questionSetProgress.find? (fun q => q.questionSetOrder == k) = some p)
    (hc : p.status = .completed)
    (req : SubmitRequest) (now freshId : Nat) (hreq : req.questionSetOrder = k) :
    ∃ e, submitQuestionSet st quizId req now freshId = .error e := by
  have hne : aq0.questionSetProgress ≠ [] := by
    intro h
    rw [h] at hinner
    cases hinner
  unfold submitQuestionSet
  by_cases hv : req.questionSetOrder < 1 ∨ 4 < req.questionSetOrder
  · exact ⟨_, by rw [if_pos hv]⟩
  · rw [if_neg hv, hfind]
    dsimp only
    by_cases hcs : aq0.status = .completed
    · exact ⟨_, by rw [if_pos hcs]⟩
    · rw [if_neg hcs]
      cases hquiz : st.quizzes.find? (fun qz => qz.quizId == quizId) with
      | none => exact ⟨_, rfl⟩
      | some quiz =>
        dsimp only
        cases hqs : quiz.questionSets.find?
            (fun q => q.order == req.questionSetOrder) with
        | none => exact ⟨_, rfl⟩
        | some qs =>
          dsimp only
          rw [initIfEmpty_eq_self hne, hreq, hinner]
          rw [if_pos (by simp [hc])]
          exact ⟨_, rfl⟩

/-- A start request for a slot whose progress is completed is rejected. -/
theorem startQS_slot_completed_errors (st : St) (quizId k : Nat)
    (aq0 : AssignedQuiz) (p : QSProgress)
    (hfind : st.taker.assignedQuizzes.find? (fun a => a.quizId == quizId) = some aq0)
    (hinner : aq0.questionSetProgress.find? (fun q => q.questionSetOrder == k) = some p)
    (hc : p.status = .completed) (now : Nat) :
    ∃ e, startQuestionSet st quizId k now = .error e := by
  have hne : aq0.questionSetProgress ≠ [] := by
    intro h
    rw [h] at hinner
    cases hinner
  unfold startQuestionSet
  by_cases hv : k < 1 ∨ 4 < k
  · exact ⟨_, by rw [if_pos hv]⟩
  · rw [if_neg hv, hfind]
    dsimp only
    by_cases hcs : aq0.status = .completed
    · exact ⟨_, by rw [if_pos hcs]⟩
    · rw [if_neg hcs]
      rw [initializeQuestionSetProgress_eq_self hne, hinner]
      dsimp only
      rw [if_pos hc]
      exact ⟨_, rfl⟩

/-- The quiz-start route never touches an existing slot record: its
progress initialization is a no-op on a non-empty progress array. -/
theorem slotRecord_preserved_startQuiz (st : St) (quizId k : Nat)
    (aq0 : AssignedQuiz) (p : QSProgress)
    (hfind : st.taker.assignedQuizzes.find? (fun a => a.quizId == quizId) = some aq0)
    (hinner : aq0.questionSetProgress.find? (fun q => q.questionSetOrder == k) = some p)
    (q2 n : Nat) :
    slotRecord (applyOp st (.startQuiz q2 n)) quizId k = some p := by
  have hpred : (aq0.quizId == quizId) = true := by simpa using List.find?_some hfind
  have hne : aq0.questionSetProgress ≠ [] := by
    intro h
    rw [h] at hinner
    cases hinner
  rw [applyOp]
  cases hres : startQuiz st q2 n with
  | error e => simp [slotRecord, hfind, hinner]
  | ok s =>
    dsimp only
    by_cases hq : q2 = quizId
    · subst hq
      unfold startQuiz at hres
      rw [hfind] at hres
      dsimp only at hres
      by_cases hcs : aq0.status = .completed
      · rw [if_pos hcs] at hres; cases hres
      · rw [if_neg hcs] at hres
        by_cases hip : aq0.status = .inProgress
        · rw [if_pos hip] at hres
          injection hres with h
          rw [← h]
          simp [slotRecord, hfind, hinner]
        · rw [if_neg hip] at hres
          injection hres with h
          rw [← h, slotRecord]
          dsimp only
          rw [find?_updateFirst_self hfind (by simpa using hpred)]
          have hinit : initializeQuestionSetProgress
              { aq0 with status := .inProgress, startedAt := some n } =
              { aq0 with status := .inProgress, startedAt := some n } :=
            initializeQuestionSetProgress_eq_self hne
          rw [hinit]
          simpa using hinner
    · unfold startQuiz at hres
      cases hfind2 : st.taker.assignedQuizzes.find? (fun a => a.quizId == q2) with
      | none => rw [hfind2] at hres; cases hres
      | some aq2 =>
        rw [hfind2] at hres
        dsimp only at hres
        have hq2 : aq2.quizId = q2 := by simpa using List.find?_some hfind2
        by_cases hcs : aq2.status = .completed
        · rw [if_pos hcs] at hres; cases hres
        · rw [if_neg hcs] at hres
          by_cases hip : aq2.status = .inProgress
          · rw [if_pos hip] at hres
            injection hres with h
            rw [← h]
            simp [slotRecord, hfind, hinner]
          · rw [if_neg hip] at hres
            injection hres with h
            rw [← h, slotRecord]
            dsimp only
            rw [find?_updateFirst_disjoint (by
              intro a ha
              have haq : a.quizId = q2 := by simpa using ha
              constructor
              · simp [haq, hq]
              · simp [hq2, hq])]
            rw [hfind]
            simpa using hinner

/-- Replacing the found assignment by one with the same quiz reference
whose progress still lists the record keeps the slot record. -/
theorem slotRecord_replace (l : List AssignedQuiz) (quizId k : Nat)
    (aq0 aqN : AssignedQuiz) (p : QSProgress)
    (hfind : l.find? (fun a => a.quizId == quizId) = some aq0)
    (hid : aqN.quizId = aq0.quizId)
    (hprog : aqN.questionSetProgress.find? (fun q => q.questionSetOrder == k) = some p) :
    ((updateFirst (fun a => a.quizId == quizId) (fun _ => aqN) l).find?
      (fun a => a.quizId == quizId)).bind
      (fun aq => aq.questionSetProgress.find? (fun q => q.questionSetOrder == k)) =
      some p := by
  have hpred : (aq0.quizId == quizId) = true := by simpa using List.find?_some hfind
  rw [find?_updateFirst_self hfind (by simp only [hid]; exact hpred)]
  simpa using hprog

/-- An update targeting a different quiz reference keeps the slot record
of this one. -/
theorem slotRecord_other (l : List AssignedQuiz) (quizId k q2 : Nat) (hq : q2 ≠ quizId)
    (aqN : AssignedQuiz) (hid : aqN.quizId = q2)
    (aq0 : AssignedQuiz) (p : QSProgress)
    (hfind : l.find? (fun a => a.quizId == quizId) = some aq0)
    (hinner : aq0.questionSetProgress.find? (fun q => q.questionSetOrder == k) = some p) :
    ((updateFirst (fun a => a.quizId == q2) (fun _ => aqN) l).find?
      (fun a => a.quizId == quizId)).bind
      (fun aq => aq.questionSetProgress.find? (fun q => q.questionSetOrder == k)) =
      some p := by
  rw [find?_updateFirst_disjoint (by
    intro a ha
    have haq : a.quizId = q2 := by simpa using ha
    exact ⟨by simp [haq, hq], by simp [hid, hq]⟩)]
  rw [hfind]
  simpa using hinner

/-- The start route of one question set leaves every other slot record,
and in particular every completed one, unchanged. -/
theorem slotRecord_preserved_startQS (st : St) (quizId k : Nat)
    (aq0 : AssignedQuiz) (p : QSProgress)
    (hfind : st.taker.assignedQuizzes.find? (fun a => a.quizId == quizId) = some aq0)
    (hinner : aq0.questionSetProgress.find? (fun q => q.questionSetOrder == k) = some p)
    (hc : p.status = .completed) (q2 j n : Nat) :
    slotRecord (applyOp st (.startQuestionSet q2 j n)) quizId k = some p := by
  have hne : aq0.questionSetProgress ≠ [] := by
    intro h
    rw [h] at hinner
    cases hinner
  rw [applyOp]
  cases hres : startQuestionSet st q2 j n with
  | error e => simp [slotRecord, hfind, hinner]
  | ok s =>
    dsimp only
    unfold startQuestionSet at hres
    by_cases hv : j < 1 ∨ 4 < j
    · rw [if_pos hv] at hres; cases hres
    · rw [if_neg hv] at hres
      by_cases hq : q2 = quizId
      · subst hq
        rw [hfind] at hres
        dsimp only at hres
        by_cases hcs : aq0.status = .completed
        · rw [if_pos hcs] at hres; cases hres
        · rw [if_neg hcs] at hres
          rw [initializeQuestionSetProgress_eq_self hne] at hres
          cases hqsp : aq0.questionSetProgress.find?
              (fun q => q.questionSetOrder == j) with
          | none => rw [hqsp] at hres; cases hres
          | some qsp =>
            rw [hqsp] at hres
            dsimp only at hres
            by_cases hqc : qsp.status = .completed
            · rw [if_pos hqc] at hres; cases hres
            · rw [if_neg hqc] at hres
              by_cases hjk : j = k
              · subst hjk
                rw [hinner] at hqsp
                injection hqsp with hqsp
                exact absurd (hqsp ▸ hc) hqc
              · injection hres with h
                rw [← h, slotRecord]
                dsimp only
                apply slotRecord_replace _ _ _ _ _ _ hfind
                · by_cases hpend : aq0.status = .pending <;>
                    by_cases hns : qsp.status = .notStarted <;>
                    simp [hpend, hns]
                · by_cases hpend : aq0.status = .pending <;>
                    by_cases hns : qsp.status = .notStarted <;>
                    simp only [hpend, hns, if_true, if_false] <;>
                    first
                    | (rw [find?_updateFirst_disjoint (by
                        intro a ha
                        have haj : a.questionSetOrder = j := by simpa using ha
                        constructor
                        · simp [haj, hjk]
                        · simp [haj, hjk])]
                       exact hinner)
                    | exact hinner
      · cases hfind2 : st.taker.assignedQuizzes.find? (fun a => a.quizId == q2) with
        | none => rw [hfind2] at hres; cases hres
        | some aq2 =>
          rw [hfind2] at hres
          dsimp only at hres
          have hq2 : aq2.quizId = q2 := by simpa using List.find?_some hfind2
          by_cases hcs : aq2.status = .completed
          · rw [if_pos hcs] at hres; cases hres
          · rw [if_neg hcs] at hres
            cases hqsp : (initializeQuestionSetProgress aq2).questionSetProgress.find?
                (fun q => q.questionSetOrder == j) with
            | none => rw [hqsp] at hres; cases hres
            | some qsp =>
              rw [hqsp] at hres
              dsimp only at hres
              by_cases hqc : qsp.status = .completed
              · rw [if_pos hqc] at hres; cases hres
              · rw [if_neg hqc] at hres
                injection hres with h
                rw [← h, slotRecord]
                dsimp only
                apply slotRecord_other _ _ _ _ hq _ ?_ _ _ hfind hinner
                by_cases hpend : aq2.status = .pending <;>
                  by_cases hns : qsp.status = .notStarted <;>
                  simp [hpend, hns, hq2]

/-- The set-question-order route is rejected outright once any slot is
completed and the assignment is in progress; in the remaining reachable
branch it stamps selectedOrder only, so the frozen fields of every slot
record survive. -/
theorem slotRecord_preserved_setOrder (st : St) (quizId k : Nat)
    (aq0 : AssignedQuiz) (p : QSProgress)
    (hfind : st.taker.assignedQuizzes.find? (fun a => a.quizId == quizId) = some aq0)
    (hinner : aq0.questionSetProgress.find? (fun q => q.questionSetOrder == k) = some p)
    (q2 : Nat) (ord : List Nat) :
    (slotRecord (applyOp st (.setQuestionSetOrder q2 ord)) quizId k).map slotFrozen =
      some (slotFrozen p) := by
  have hpred : (aq0.quizId == quizId) = true := by simpa using List.find?_some hfind
  have hne : aq0.questionSetProgress ≠ [] := by
    intro h
    rw [h] at hinner
    cases hinner
  rw [applyOp]
  cases hres : setQuestionSetOrder st q2 ord with
  | error e => simp [slotRecord, hfind, hinner]
  | ok s =>
    dsimp only
    unfold setQuestionSetOrder at hres
    by_cases hv : ¬(ord.length = 4 ∧ sortNat ord = [1, 2, 3, 4])
    · rw [if_pos hv] at hres; cases hres
    · rw [if_neg hv] at hres
      by_cases hq : q2 = quizId
      · subst hq
        rw [hfind] at hres
        dsimp only at hres
        by_cases hcs : aq0.status = .completed
        · rw [if_pos hcs] at hres; cases hres
        · rw [if_neg hcs] at hres
          by_cases hgrd : aq0.status = .inProgress ∧
              aq0.questionSetProgress.any (fun p => p.status == .completed) = true
          · rw [if_pos hgrd] at hres; cases hres
          · rw [if_neg hgrd] at hres
            injection hres with h
            rw [← h, slotRecord]
            dsimp only
            have hinit : initializeQuestionSetProgress
                { aq0 with selectedQuestionSetOrder := ord } =
                { aq0 with selectedQuestionSetOrder := ord } :=
              initializeQuestionSetProgress_eq_self hne
            rw [hinit]
            rw [find?_updateFirst_self hfind (by simpa using hpred)]
            dsimp only [Option.bind]
            rw [find?_map_comm (fun q => q.questionSetOrder == k)
              (fun p => { p with
                  selectedOrder :=
                    some (List.findIdx (fun y => y == p.questionSetOrder) ord + 1) })
              aq0.questionSetProgress (fun a => rfl), hinner]
            rfl
      · cases hfind2 : st.taker.assignedQuizzes.find? (fun a => a.quizId == q2) with
        | none => rw [hfind2] at hres; cases hres
        | some aq2 =>
          rw [hfind2] at hres
          dsimp only at hres
          have hq2 : aq2.quizId = q2 := by simpa using List.find?_some hfind2
          by_cases hcs : aq2.status = .completed
          · rw [if_pos hcs] at hres; cases hres
          · rw [if_neg hcs] at hres
            by_cases hgrd : aq2.status = .inProgress ∧
                aq2.questionSetProgress.any (fun p => p.status == .completed) = true
            · rw [if_pos hgrd] at hres; cases hres
            · rw [if_neg hgrd] at hres
              injection hres with h
              rw [← h, slotRecord]
              dsimp only
              rw [slotRecord_other _ _ _ _ hq _ (by simp [hq2]) _ _ hfind hinner]
              rfl

/-- A submit for a different slot or quiz never touches this completed
slot record: the slot guard rejects same-slot submits, and all other
writes are disjoint from it. -/
theorem slotRecord_preserved_submit (st : St) (quizId k : Nat)
    (aq0 : AssignedQuiz) (p : QSProgress)
    (hfind : st.taker.assignedQuizzes.find? (fun a => a.quizId == quizId) = some aq0)
    (hinner : aq0.questionSetProgress.find? (fun q => q.questionSetOrder == k) = some p)
    (hc : p.status = .completed) (q2 : Nat) (r : SubmitRequest) (n fid : Nat) :
    slotRecord (applyOp st (.submitQuestionSet q2 r n fid)) quizId k = some p := by
  have hne : aq0.questionSetProgress ≠ [] := by
    intro h
    rw [h] at hinner
    cases hinner
  rw [applyOp]
  cases hres : submitQuestionSet st q2 r n fid with
  | error e => simp [slotRecord, hfind, hinner]
  | ok out =>
    obtain ⟨st1, resp⟩ := out
    dsimp only
    obtain ⟨aq, quiz, qs, hfind2, hst2, hquiz2, hqs2, hguard2, hk2, hpair⟩ :=
      submitQuestionSet_ok_cases hres
    have hst1 : st1 =
        (submitSuccess st q2 r n fid (initIfEmpty aq) quiz qs).1 :=
      congrArg Prod.fst hpair
    obtain ⟨aq4, sc, hassigned, hq4id, hq4status, hq4prog⟩ :=
      submitSuccess_assigned_cases st q2 r n fid (initIfEmpty aq) quiz qs
    rw [hst1, slotRecord]
    rw [hassigned]
    by_cases hq : q2 = quizId
    · subst hq
      have haq : aq = aq0 := by
        rw [hfind] at hfind2
        injection hfind2 with h
        exact h.symm
      subst haq
      by_cases hjk : r.questionSetOrder = k
      · obtain ⟨e, herr⟩ := submit_slot_completed_errors st q2 k aq p hfind hinner
          hc r n fid hjk
        rw [herr] at hres
        cases hres
      · apply slotRecord_replace _ _ _ _ _ _ hfind
        · rw [hq4id, initIfEmpty_quizId]
        · rw [hq4prog, initIfEmpty_eq_self hne]
          rw [find?_updateFirst_disjoint (by
            intro a ha
            have haj : a.questionSetOrder = r.questionSetOrder := by simpa using ha
            exact ⟨by simp [haj, hjk], by simp [haj, hjk]⟩)]
          exact hinner
    · apply slotRecord_other _ _ _ _ hq _ ?_ _ _ hfind hinner
      rw [hq4id, initIfEmpty_quizId]
      simpa using List.find?_some hfind2

/-- C5: once a slot progress record is completed, every subsequent submit
request and every subsequent start request for that slot is rejected with
an error, and no operation of the subsystem (start quiz, start question
set, set question order, submit — succeeding or not, on this quiz or any
other) ever changes the record's status, score or timestamps again. -/
theorem c5_completed_slot_frozen (st : St) (quizId k : Nat) (p : QSProgress)
    (hp : slotRecord st quizId k = some p) (hc : p.status = .completed) :
    (∀ req now freshId, req.questionSetOrder = k →
      ∃ e, submitQuestionSet st quizId req now freshId = .error e) ∧
    (∀ now, ∃ e, startQuestionSet st quizId k now = .error e) ∧
    (∀ o : Op, (slotRecord (applyOp st o) quizId k).map slotFrozen =
      some (slotFrozen p)) := by
  rw [slotRecord] at hp
  obtain ⟨aq0, hfind, hinner⟩ := Option.bind_eq_some.mp hp
  refine ⟨?_, ?_, ?_⟩
  · intro req now freshId hreq
    exact submit_slot_completed_errors st quizId k aq0 p hfind hinner hc
      req now freshId hreq
  · intro now
    exact startQS_slot_completed_errors st quizId k aq0 p hfind hinner hc now
  · intro o
    cases o with
    | startQuiz q2 n =>
      rw [slotRecord_preserved_startQuiz st quizId k aq0 p hfind hinner q2 n]
      rfl
    | startQuestionSet q2 j n =>
      rw [slotRecord_preserved_startQS st quizId k aq0 p hfind hinner hc q2 j n]
      rfl
    | setQuestionSetOrder q2 ord =>
      exact slotRecord_preserved_setOrder st quizId k aq0 p hfind hinner q2 ord
    | submitQuestionSet q2 r n fid =>
      rw [slotRecord_preserved_submit st quizId k aq0 p hfind hinner hc q2 r n fid]
      rfl

/-- Fixture state in which slot 1 of the assigned quiz is completed. -/
def exCompletedSlot : QSProgress :=
  { questionSetOrder := 1, selectedOrder := none, status := .completed,
    startedAt := some 1500, completedAt := some 2000, score := 0, totalPoints := 5 }

def exStDone : St :=
  { quizzes := [exQuiz],
    taker := { exTaker with assignedQuizzes := [{ exAssigned with
        questionSetProgress := [exCompletedSlot, emptyProgress 2, emptyProgress 3,
          emptyProgress 4] }] },
    subs := [] }

/-- Witness for c5_completed_slot_frozen: starting the quiz again leaves
the completed slot 1 record intact. -/
theorem c5_completed_slot_frozen_witness :
    (slotRecord (applyOp exStDone (.startQuiz 100 5000)) 100 1).map slotFrozen =
      some (slotFrozen exCompletedSlot) :=
  (c5_completed_slot_frozen exStDone 100 1 exCompletedSlot rfl rfl).2.2
    (.startQuiz 100 5000)

/-! ### Claim C8 -/

/-- C8: in the auto-grading switch of the transactional submit handler, a
true-false answer is correct exactly when the submitted and stored strings
agree under case-insensitive comparison, a fill-in-the-blank answer
exactly when they agree after trimming and case folding, and an essay
answer always receives isCorrect null and 0 points regardless of the
submitted text; a correct answer earns the full point value and an
incorrect one earns 0. -/
theorem c8_autograde_rules (n : Nat) (opts : List String) (ca : String) (pts : Nat)
    (s : String) :
    gradeQuestionTx ⟨n, .trueFalse, opts, ca, pts⟩ s =
      (if jsToLower s = jsToLower ca then (some true, pts) else (some false, 0)) ∧
    gradeQuestionTx ⟨n, .fillInTheBlanks, opts, ca, pts⟩ s =
      (if jsToLower (jsTrim s) = jsToLower (jsTrim ca) then (some true, pts)
       else (some false, 0)) ∧
    gradeQuestionTx ⟨n, .essay, opts, ca, pts⟩ s = (none, 0) :=
  ⟨rfl, rfl, rfl⟩

/-! ### Claim C3 -/

/-- C3 counterexample: at the grading example of the spec (options
A. Paris / B. Lyon, stored correct answer A, submitted text A. Paris) the
claimed label-prefix rule awards the full 5 points, but the transactional
submit pathway compares the submitted text against the raw stored letter
and stores isCorrect false with 0 points; running the full transactional
handler on this request confirms a slot score and overall score of 0. -/
theorem c3_counterexample :
    gradeMultipleChoiceByLabel exQuestionMC "A. Paris" = (some true, 5) ∧
    gradeQuestionTx exQuestionMC "A. Paris" = (some false, 0) ∧
    (submitQuestionSet exSt 100 exReqParis 2000 500).toOption.map
      (fun r => (r.2.questionSetScore, r.2.overallScore)) = some (0, 0) := by
  refine ⟨by decide, by decide, by decide⟩

/-- C3 (amended): in the transactional (authoritative four-question-set)
pathway a multiple-choice answer is graded by direct case-sensitive
comparison of the trimmed submitted text with the trimmed raw stored
correctAnswer, full points on equality and 0 otherwise; the label-prefix
rule stated by the claim is the one of the non-transactional pathway,
where the submitted text must equal, exactly and case-sensitively, the
option text whose trimmed form starts with the stored letter followed by
a period. -/
theorem c3_mc_grading_rules (n : Nat) (opts : List String) (ca : String) (pts : Nat)
    (s : String) :
    gradeQuestionTx ⟨n, .multipleChoice, opts, ca, pts⟩ s =
      (if jsTrim s = jsTrim ca then (some true, pts) else (some false, 0)) ∧
    (∀ opt, opts.find? (fun o => jsStartsWith (jsTrim o) (ca ++ ".")) = some opt →
      gradeMultipleChoiceByLabel ⟨n, .multipleChoice, opts, ca, pts⟩ s =
        (if s = opt then (some true, pts) else (some false, 0))) := by
  refine ⟨rfl, ?_⟩
  intro opt hopt
  simp [gradeMultipleChoiceByLabel, hopt]

/-- Witness for c3_mc_grading_rules at the options of the spec example. -/
theorem c3_mc_grading_rules_witness :
    gradeMultipleChoiceByLabel ⟨10, .multipleChoice, ["A. Paris", "B. Lyon"], "A", 5⟩
      "A. Paris" = (some true, 5) := by
  have h := (c3_mc_grading_rules 10 ["A. Paris", "B. Lyon"] "A" 5 "A. Paris").2
    "A. Paris" (by decide)
  simpa using h

/-! ### Claim C1 -/

/-- C1: the transactional submit route makes at most 3 attempts; a commit
on attempt i answers 200 with i attempts used, a non-version error on
attempt i answers 500 immediately with no further attempt, version
conflicts back off 100 ms before the second attempt and 200 ms before the
third, and three version conflicts in a row answer 409 after exactly 3
attempts.  The three nested conjunctions fully characterize the wrapper
on every outcome sequence. -/
theorem c1_retry_policy {α : Type} (outcome : Nat → TxOutcome α) :
    (∀ a, outcome 0 = .committed a → submitWithRetry outcome = .success a 1 []) ∧
    (∀ m, outcome 0 = .otherError m → submitWithRetry outcome = .serverError m 1 []) ∧
    (outcome 0 = .versionError →
      (∀ a, outcome 1 = .committed a → submitWithRetry outcome = .success a 2 [100]) ∧
      (∀ m, outcome 1 = .otherError m →
        submitWithRetry outcome = .serverError m 2 [100]) ∧
      (outcome 1 = .versionError →
        (∀ a, outcome 2 = .committed a →
          submitWithRetry outcome = .success a 3 [100, 200]) ∧
        (∀ m, outcome 2 = .otherError m →
          submitWithRetry outcome = .serverError m 3 [100, 200]) ∧
        (outcome 2 = .versionError →
          submitWithRetry outcome = .conflict 3 [100, 200]))) := by
  refine ⟨?_, ?_, ?_⟩
  · intro a h0
    simp [submitWithRetry, submitRetryGo, MAX_RETRIES, h0]
  · intro m h0
    simp [submitWithRetry, submitRetryGo, MAX_RETRIES, h0]
  · intro h0
    refine ⟨?_, ?_, ?_⟩
    · intro a h1
      simp [submitWithRetry, submitRetryGo, MAX_RETRIES, h0, h1]
    · intro m h1
      simp [submitWithRetry, submitRetryGo, MAX_RETRIES, h0, h1]
    · intro h1
      refine ⟨?_, ?_, ?_⟩
      · intro a h2
        simp [submitWithRetry, submitRetryGo, MAX_RETRIES, h0, h1, h2]
      · intro m h2
        simp [submitWithRetry, submitRetryGo, MAX_RETRIES, h0, h1, h2]
      · intro h2
        simp [submitWithRetry, submitRetryGo, MAX_RETRIES, h0, h1, h2]

/-- Witness for c1_retry_policy: three version conflicts in a row. -/
theorem c1_retry_policy_witness :
    submitWithRetry (fun _ => (TxOutcome.versionError : TxOutcome Nat)) =
      .conflict 3 [100, 200] :=
  (((c1_retry_policy (fun _ => (TxOutcome.versionError : TxOutcome Nat))).2.2
    rfl).2.2 rfl).2.2 rfl

/-! ### Claim C9 -/

/-- C9: the QuizTaker pre-save hook rejects a regular taker holding any
assigned quiz and a premium taker without an access code; the rejected
save returns the thrown error and, in this store model, never produces an
updated collection, so the document is not persisted. -/
theorem c9_presave_rejections (store : List QuizTaker) (t : QuizTaker) :
    (t.accountType = .regular → t.assignedQuizzes ≠ [] →
      saveQuizTaker store t = .error "Regular students cannot have assigned quizzes") ∧
    (t.accountType = .premium → missingAccessCode t.accessCode = true →
      saveQuizTaker store t = .error "Premium students must have an access code") := by
  constructor
  · intro hacc hne
    have hlen : 0 < t.assignedQuizzes.length := List.length_pos.mpr hne
    simp [saveQuizTaker, quizTakerPreSave, hacc, hlen]
  · intro hacc hmiss
    simp [saveQuizTaker, quizTakerPreSave, hacc, hmiss]

/-- Witness for c9_presave_rejections: one regular taker holding an
assigned quiz, one premium taker with no access code. -/
theorem c9_presave_rejections_witness :
    saveQuizTaker []
        ⟨1, .regular, none, [⟨100, .pending, none, none, none, [], [], none⟩], []⟩ =
      .error "Regular students cannot have assigned quizzes" ∧
    saveQuizTaker [] ⟨2, .premium, none, [], []⟩ =
      .error "Premium students must have an access code" :=
  ⟨(c9_presave_rejections [] _).1 rfl (by decide),
   (c9_presave_rejections [] _).2 rfl rfl⟩

/-! ### Claim C7 -/

theorem countInProgress_le_one_of_indexOk {store : List QuizSubmission}
    (h : inProgressIndexOk store = true) (quizId takerId : Nat) :
    countInProgress store quizId takerId ≤ 1 := by
  induction store with
  | nil => simp [countInProgress]
  | cons d ds ih =>
    rw [inProgressIndexOk] at h
    simp only [Bool.and_eq_true, List.all_eq_true] at h
    obtain ⟨hall, hrest⟩ := h
    by_cases hd : (d.quizId == quizId && d.quizTakerId == takerId &&
        d.status == SubStatus.inProgress) = true
    · have hfilter : ds.filter (fun s => s.quizId == quizId &&
          s.quizTakerId == takerId && s.status == SubStatus.inProgress) = [] := by
        rw [List.filter_eq_nil_iff]
        intro e he hpe
        have hv := hall e he
        simp only [Bool.and_eq_true, beq_iff_eq] at hd hpe
        simp [violatesInProgressIndex, hd.1.1, hd.1.2, hd.2, hpe.1.1, hpe.1.2,
          hpe.2] at hv
      rw [countInProgress, List.filter_cons, if_pos hd, hfilter]
      simp
    · rw [countInProgress, List.filter_cons, if_neg hd]
      exact ih hrest

/-- C7: a successful save of any submission document against the
collection carrying the partial unique index of the latest QuizSubmission
schema revision (src/unnamed/part_003 line 137: unique on quizId and
quizTakerId, partial-filtered to status in-progress) yields a collection
with at most one in-progress submission per (quiz, taker) pair.  The
saved document is arbitrary, so the bound is enforced by the store-level
constraint alone and not by the submit handler's find-then-create
logic. -/
theorem c7_unique_inprogress_submission (store res : List QuizSubmission)
    (doc : QuizSubmission) (h : saveSubmissionDoc store doc = .ok res)
    (quizId takerId : Nat) : countInProgress res quizId takerId ≤ 1 := by
  by_cases hb : inProgressIndexOk (upsertBySubId store doc) = true
  · rw [saveSubmissionDoc, if_pos hb] at h
    cases h
    exact countInProgress_le_one_of_indexOk hb quizId takerId
  · rw [saveSubmissionDoc, if_neg hb] at h
    cases h

/-- Fixture submission document for the c7 witness. -/
def exOpenSub : QuizSubmission :=
  { subId := 500, quizId := 100, quizTakerId := 7, answers := [],
    questionSetSubmissions := [], startedAt := some 1000, submittedAt := 2000,
    timeTaken := 0, score := 0, totalPoints := 8, status := .inProgress,
    questionSetOrderUsed := [1, 2, 3, 4], attemptNumber := 1 }

/-- Witness for c7_unique_inprogress_submission: insert one open
submission into the empty collection. -/
theorem c7_unique_inprogress_submission_witness :
    countInProgress [exOpenSub] 100 7 ≤ 1 :=
  c7_unique_inprogress_submission [] [exOpenSub] exOpenSub rfl 100 7

/-! ### Claim C10 -/

/-- C10: a submitted answer whose questionId matches no question of the
targeted question set is silently skipped by the transactional submit
handler: the whole request behaves exactly as if that answer were absent,
so the request does not fail because of it, no answer record is stored
for it, and it contributes nothing to the slot score or the overall
score. -/
theorem c10_unknown_question_skipped (st : St) (quizId now freshId k : Nat)
    (l1 l2 : List SubmittedAnswer) (sa : SubmittedAnswer) (fin : Bool)
    (quiz : Quiz) (qs : QuestionSet)
    (hq : st.quizzes.find? (fun qz => qz.quizId == quizId) = some quiz)
    (hqs : quiz.questionSets.find? (fun q => q.order == k) = some qs)
    (hmiss : qs.questions.find? (fun q => q.qid == sa.questionId) = none) :
    submitQuestionSet st quizId ⟨k, l1 ++ sa :: l2, fin⟩ now freshId =
      submitQuestionSet st quizId ⟨k, l1 ++ l2, fin⟩ now freshId := by
  have hnone : gradeSubmittedAnswer qs k sa = none := by
    simp [gradeSubmittedAnswer, hmiss]
  have hfm : (l1 ++ sa :: l2).filterMap (gradeSubmittedAnswer qs k) =
      (l1 ++ l2).filterMap (gradeSubmittedAnswer qs k) := by
    simp [List.filterMap_append, List.filterMap_cons, hnone]
  have hsucc : ∀ aq1, submitSuccess st quizId ⟨k, l1 ++ sa :: l2, fin⟩ now freshId
      aq1 quiz qs = submitSuccess st quizId ⟨k, l1 ++ l2, fin⟩ now freshId aq1 quiz qs := by
    intro aq1
    unfold submitSuccess
    simp only [hfm]
  unfold submitQuestionSet
  by_cases hk : k < 1 ∨ 4 < k
  · have hk0 : k = 0 ∨ 4 < k := by simpa [Nat.lt_one_iff] using hk
    simp [hk0]
  · simp only [hk, if_false]
    cases hfind : st.taker.assignedQuizzes.find? (fun aq => aq.quizId == quizId) with
    | none => rfl
    | some aq =>
      by_cases hst : aq.status = .completed
      · simp [hst]
      · simp only [hst, if_false, hq, hqs]
        by_cases hguard : ((initIfEmpty aq).questionSetProgress.find?
            (fun p => p.questionSetOrder == k)).any (fun p => p.status == .completed) = true
        · simp [hguard]
        · simp [hguard, hsucc]

/-- Witness for c10_unknown_question_skipped: question id 999 appears in
no question set of the fixture quiz. -/
theorem c10_unknown_question_skipped_witness :
    submitQuestionSet exSt 100 ⟨1, [⟨10, "A"⟩] ++ ⟨999, "zzz"⟩ :: [], false⟩ 2000 500 =
      submitQuestionSet exSt 100 ⟨1, [⟨10, "A"⟩] ++ [], false⟩ 2000 500 :=
  c10_unknown_question_skipped exSt 100 2000 500 1 [⟨10, "A"⟩] [] ⟨999, "zzz"⟩ false
    exQuiz exQS1 (by decide) (by decide) (by decide)

end Bjot
